import Mathlib

/-!
Shallow embedding of the `slide` sliding-window session tracker
(Go package `slide`: `Session`, `tracker`, its janitor, and options).

Modelling choices:
* Go `*Session[T]` pointers become session identifiers (`Nat`) into a heap
  `Nat → Session T`; pointer equality becomes identifier equality.
* Go maps (`sessions`, `eventToSession`) become `FMap`: a lookup function
  paired with its finite domain, mirroring both Go map lookup and `len`.
* `time.Time` / `time.Duration` become `Int` (nanoseconds); `now.Sub(x) > d`
  becomes `now - x > d`.
* The `onSessionEnd` callback is modelled by a flag `hasOnSessionEnd` plus an
  explicit output list of `(payload, metadata)` pairs recording each firing
  (`go t.onSessionEnd(session.data, &session.metadata)` reads the metadata
  record as it stands when the goroutine is spawned).
* The janitor loop acts on one snapshot entry at a time; those per-entry
  bodies are modelled as step functions whose state argument may differ from
  the snapshot the entry came from, which represents interleaved mutation
  between the snapshot and the removal.
* Calls to `sessionInitFunc` are additionally recorded in `initCalls` so that
  "the initializer is invoked exactly once" is expressible.
-/

namespace Slide

/-- Finite map modelling a Go `map`: a lookup function together with its
domain as a `Finset`, coupled by `mem_dom`.  `size` models Go's `len`. -/
structure FMap (α β : Type) [DecidableEq α] where
  find : α → Option β
  dom : Finset α
  mem_dom : ∀ x, x ∈ dom ↔ (find x).isSome

namespace FMap

variable {α β : Type} [DecidableEq α]

def empty : FMap α β :=
  ⟨fun _ => none, ∅, by simp⟩

def insert (m : FMap α β) (k : α) (v : β) : FMap α β :=
  ⟨fun x => if x = k then some v else m.find x,
   Insert.insert k m.dom,
   by
    intro x
    by_cases h : x = k
    · simp [h]
    · simp [h, m.mem_dom]⟩

def erase (m : FMap α β) (k : α) : FMap α β :=
  ⟨fun x => if x = k then none else m.find x,
   m.dom.erase k,
   by
    intro x
    by_cases h : x = k
    · simp [h]
    · simp [h, m.mem_dom]⟩

def size (m : FMap α β) : Nat := m.dom.card

@[simp] theorem find_empty (x : α) : (empty : FMap α β).find x = none := rfl

@[simp] theorem find_insert (m : FMap α β) (k : α) (v : β) (x : α) :
    (m.insert k v).find x = if x = k then some v else m.find x := rfl

@[simp] theorem find_erase (m : FMap α β) (k : α) (x : α) :
    (m.erase k).find x = if x = k then none else m.find x := rfl

@[simp] theorem dom_insert (m : FMap α β) (k : α) (v : β) :
    (m.insert k v).dom = Insert.insert k m.dom := rfl

@[simp] theorem dom_erase (m : FMap α β) (k : α) :
    (m.erase k).dom = m.dom.erase k := rfl

@[simp] theorem dom_empty : (empty : FMap α β).dom = ∅ := rfl

theorem find_isSome_iff_mem (m : FMap α β) (x : α) :
    (m.find x).isSome ↔ x ∈ m.dom := (m.mem_dom x).symm

end FMap

/-- Go `SessionMetadata`: `Created` and `Updated` timestamps. -/
structure SessionMetadata where
  created : Int
  updated : Int
deriving DecidableEq, Repr

/-- Go `Session[T]` (the mutex is a concurrency artifact and has no
sequential content). -/
structure Session (T : Type) where
  data : T
  events : Finset String
  retired : Bool
  metadata : SessionMetadata
deriving DecidableEq

/-- Go `Session.Data`. -/
def Session.Data {T : Type} (s : Session T) : T := s.data

/-- Go `Session.janitorShouldRemove`: false while events are in flight;
otherwise age-based when a max session timeout is set, else idle-based. -/
def Session.janitorShouldRemove {T : Type} (s : Session T) (now : Int)
    (inactivityTimeout : Int) (maxSessionTimeout : Option Int) : Bool :=
  if s.events = (∅ : Finset String) then
    match maxSessionTimeout with
    | some m => decide (now - s.metadata.created > m)
    | none => decide (now - s.metadata.updated > inactivityTimeout)
  else false

/-- The tracker's immutable configuration (Go `tracker` fields set by
`NewTracker` from `config`): the session initializer, the timeouts, and
whether an `onSessionEnd` callback is configured. -/
structure Config (T : Type) where
  sessionInitFunc : String → T
  inactivityTimeout : Int
  maxSessionTimeout : Option Int
  hasOnSessionEnd : Bool

/-- The mutable state of Go `tracker[T]`: the primary-session map, the
reverse event index, the retired set, plus the session heap (`Nat`-addressed
model of Go pointers), the next fresh identifier, and the ghost record of
initializer invocations. -/
structure TrackerState (T : Type) where
  sessions : FMap String Nat
  eventToSession : FMap String Nat
  retiredSessions : Finset Nat
  heap : Nat → Session T
  nextId : Nat
  initCalls : List String

/-- The state of a freshly constructed tracker (`NewTracker`): all three
structures empty.  `t0` fills the unallocated part of the heap. -/
def initialState {T : Type} (t0 : T) : TrackerState T :=
  { sessions := FMap.empty
    eventToSession := FMap.empty
    retiredSessions := ∅
    heap := fun _ => ⟨t0, ∅, false, ⟨0, 0⟩⟩
    nextId := 0
    initCalls := [] }

/-- A record of one `onSessionEnd` firing: the payload and the metadata the
spawned goroutine observes. -/
structure Fired (T : Type) where
  data : T
  metadata : SessionMetadata
deriving DecidableEq

/-- Go `tracker.EventStart`.  Returns the new state and the identifier of the
returned session. -/
def EventStart {T : Type} (cfg : Config T) (st : TrackerState T)
    (sessionDedupKey : String) (eventID : String) (now : Int) :
    TrackerState T × Nat :=
  match st.sessions.find sessionDedupKey with
  | some sid =>
    let session := st.heap sid
    let expired : Bool :=
      match cfg.maxSessionTimeout with
      | some m => decide (now - session.metadata.created > m)
      | none => false
    if expired then
      -- split: retire the old session, drop the in-flight placeholder,
      -- move it to the retired set, create and install a new session.
      let oldSession : Session T :=
        { session with events := session.events.erase eventID, retired := true }
      let newSid := st.nextId
      let newSession : Session T :=
        ⟨cfg.sessionInitFunc sessionDedupKey, {eventID}, false, ⟨now, now⟩⟩
      ({ st with
          heap := Function.update (Function.update st.heap sid oldSession) newSid newSession
          retiredSessions := Insert.insert sid st.retiredSessions
          sessions := st.sessions.insert sessionDedupKey newSid
          eventToSession := st.eventToSession.insert eventID newSid
          nextId := st.nextId + 1
          initCalls := st.initCalls ++ [sessionDedupKey] }, newSid)
    else
      -- the current session is still valid, so we re-use it
      let session' : Session T :=
        { session with
            events := Insert.insert eventID session.events
            metadata := { session.metadata with updated := now } }
      ({ st with
          heap := Function.update st.heap sid session'
          eventToSession := st.eventToSession.insert eventID sid }, sid)
  | none =>
    -- no session found, create a new one.
    let newSid := st.nextId
    let newSession : Session T :=
      ⟨cfg.sessionInitFunc sessionDedupKey, {eventID}, false, ⟨now, now⟩⟩
    ({ st with
        heap := Function.update st.heap newSid newSession
        sessions := st.sessions.insert sessionDedupKey newSid
        eventToSession := st.eventToSession.insert eventID newSid
        nextId := st.nextId + 1
        initCalls := st.initCalls ++ [sessionDedupKey] }, newSid)

/-- Go `tracker.EventEnd`.  Returns the new state, the `error` result, and
the list of `onSessionEnd` firings this call spawns. -/
def EventEnd {T : Type} (cfg : Config T) (st : TrackerState T)
    (eventID : String) (now : Int) :
    TrackerState T × Except String Unit × List (Fired T) :=
  match st.eventToSession.find eventID with
  | none =>
    (st, Except.error ("event " ++ eventID ++ " is not associated with any session"), [])
  | some sid =>
    let session := st.heap sid
    let session' : Session T :=
      { session with
          events := session.events.erase eventID
          metadata := { session.metadata with updated := now } }
    let shouldDelete : Bool :=
      decide (session'.events = (∅ : Finset String)) && session'.retired
    let st1 : TrackerState T :=
      { st with
          heap := Function.update st.heap sid session'
          eventToSession := st.eventToSession.erase eventID }
    if shouldDelete then
      ({ st1 with retiredSessions := st1.retiredSessions.erase sid },
       Except.ok (),
       if cfg.hasOnSessionEnd then [⟨session'.data, session'.metadata⟩] else [])
    else
      (st1, Except.ok (), [])

/-- One snapshot entry of the janitor's active-session sweep
(Go `tracker.janitor`, first loop body): `(sessionDedupKey, sid)` comes from
the snapshot; `st` is the store at removal time and may have changed since. -/
def janitorRemoveActive {T : Type} (cfg : Config T) (st : TrackerState T)
    (sessionDedupKey : String) (sid : Nat) (now : Int) :
    TrackerState T × List (Fired T) :=
  if (st.heap sid).janitorShouldRemove now cfg.inactivityTimeout cfg.maxSessionTimeout then
    match st.sessions.find sessionDedupKey with
    | some current =>
      if current = sid then
        ({ st with sessions := st.sessions.erase sessionDedupKey },
         if cfg.hasOnSessionEnd then
           [⟨(st.heap sid).data, (st.heap sid).metadata⟩]
         else [])
      else (st, [])
    | none => (st, [])
  else (st, [])

/-- One snapshot entry of the janitor's retired-session sweep
(Go `tracker.janitor`, second loop body). -/
def janitorRemoveRetired {T : Type} (cfg : Config T) (st : TrackerState T)
    (sid : Nat) (now : Int) : TrackerState T × List (Fired T) :=
  if (st.heap sid).janitorShouldRemove now cfg.inactivityTimeout cfg.maxSessionTimeout then
    ({ st with retiredSessions := st.retiredSessions.erase sid },
     if cfg.hasOnSessionEnd then
       [⟨(st.heap sid).data, (st.heap sid).metadata⟩]
     else [])
  else (st, [])

/-- The set of live (primary) session identifiers: the range of the
`sessions` map. -/
def liveSids {T : Type} (st : TrackerState T) : Finset Nat :=
  st.sessions.dom.biUnion fun k => (st.sessions.find k).elim ∅ fun sid => {sid}

/-- Live and retired session identifiers together. -/
def activeSids {T : Type} (st : TrackerState T) : Finset Nat :=
  liveSids st ∪ st.retiredSessions

theorem mem_liveSids {T : Type} (st : TrackerState T) (sid : Nat) :
    sid ∈ liveSids st ↔ ∃ k, st.sessions.find k = some sid := by
  unfold liveSids
  simp only [Finset.mem_biUnion]
  constructor
  · rintro ⟨k, _, hk⟩
    rcases h : st.sessions.find k with _ | v
    · rw [h] at hk; simp [Option.elim] at hk
    · rw [h] at hk; simp [Option.elim] at hk; exact ⟨k, by rw [h, hk]⟩
  · rintro ⟨k, hk⟩
    refine ⟨k, ?_, ?_⟩
    · rw [st.sessions.mem_dom, hk]; rfl
    · rw [hk]; simp [Option.elim]

/-- The mutual-consistency invariant between each session's open-event set
and the reverse index: every open event of a live or retired session is
indexed to that session, and every index entry points at a live or retired
session that holds the event open. -/
def Consistent {T : Type} (st : TrackerState T) : Prop :=
  (∀ sid ∈ activeSids st, ∀ e ∈ (st.heap sid).events,
    st.eventToSession.find e = some sid) ∧
  (∀ e sid, st.eventToSession.find e = some sid →
    sid ∈ activeSids st ∧ e ∈ (st.heap sid).events)

/-- Strengthened induction invariant: consistency plus freshness of
unallocated identifiers. -/
def Inv {T : Type} (st : TrackerState T) : Prop :=
  Consistent st ∧ ∀ sid ∈ activeSids st, sid < st.nextId

/-- One API call of the tracker. -/
inductive Op where
  | start (sessionDedupKey eventID : String) (now : Int)
  | finish (eventID : String) (now : Int)
deriving DecidableEq, Repr

/-- The state transition of one API call (discarding return values). -/
def stepOp {T : Type} (cfg : Config T) (st : TrackerState T) : Op → TrackerState T
  | Op.start k e now => (EventStart cfg st k e now).1
  | Op.finish e now => (EventEnd cfg st e now).1

/-- Run a sequence of API calls. -/
def runOps {T : Type} (cfg : Config T) (st : TrackerState T) : List Op → TrackerState T
  | [] => st
  | op :: rest => runOps cfg (stepOp cfg st op) rest

/-- Precondition of one call for the consistency claim: an `EventStart`
may not reuse an event identifier that is currently open against a session
other than the primary session of its own dedup key. -/
def okOp {T : Type} (st : TrackerState T) : Op → Prop
  | Op.start k e _ =>
      ∀ sid, st.eventToSession.find e = some sid → st.sessions.find k = some sid
  | Op.finish _ _ => True

/-- All calls of a trace satisfy their precondition in the state where they
run. -/
def okTrace {T : Type} (cfg : Config T) (st : TrackerState T) : List Op → Prop
  | [] => True
  | op :: rest => okOp st op ∧ okTrace cfg (stepOp cfg st op) rest

/-- Total number of open events across live and retired sessions. -/
def totalOpenEvents {T : Type} (st : TrackerState T) : Nat :=
  Finset.sum (activeSids st) fun sid => (st.heap sid).events.card

/-- Run a sequence of `EventStart` calls for one fixed dedup key, collecting
the returned session identifiers. -/
def runStarts {T : Type} (cfg : Config T) (sessionDedupKey : String)
    (st : TrackerState T) : List (String × Int) → TrackerState T × List Nat
  | [] => (st, [])
  | (e, now) :: rest =>
    let r := EventStart cfg st sessionDedupKey e now
    let rr := runStarts cfg sessionDedupKey r.1 rest
    (rr.1, r.2 :: rr.2)

/-! ### Branch characterizations of the two API calls -/

theorem eventStart_fresh {T : Type} (cfg : Config T) (st : TrackerState T)
    (k e : String) (now : Int) (hfind : st.sessions.find k = none) :
    EventStart cfg st k e now =
      ({ st with
          heap := Function.update st.heap st.nextId
            ⟨cfg.sessionInitFunc k, {e}, false, ⟨now, now⟩⟩
          sessions := st.sessions.insert k st.nextId
          eventToSession := st.eventToSession.insert e st.nextId
          nextId := st.nextId + 1
          initCalls := st.initCalls ++ [k] }, st.nextId) := by
  unfold EventStart
  rw [hfind]

theorem eventStart_reuse {T : Type} (cfg : Config T) (st : TrackerState T)
    (k e : String) (now : Int) (sid : Nat)
    (hfind : st.sessions.find k = some sid)
    (hfresh : ∀ m, cfg.maxSessionTimeout = some m →
      now - (st.heap sid).metadata.created ≤ m) :
    EventStart cfg st k e now =
      ({ st with
          heap := Function.update st.heap sid
            { st.heap sid with
                events := insert e (st.heap sid).events
                metadata := { (st.heap sid).metadata with updated := now } }
          eventToSession := st.eventToSession.insert e sid }, sid) := by
  unfold EventStart
  rw [hfind]
  have hexp : (match cfg.maxSessionTimeout with
      | some m => decide (now - (st.heap sid).metadata.created > m)
      | none => false) = false := by
    cases hmt : cfg.maxSessionTimeout with
    | none => rfl
    | some m =>
      simpa using not_lt.mpr (hfresh m hmt)
  simp only [hexp, if_neg Bool.false_ne_true]

theorem eventStart_split {T : Type} (cfg : Config T) (st : TrackerState T)
    (k e : String) (now : Int) (sid : Nat) (m : Int)
    (hfind : st.sessions.find k = some sid)
    (hmt : cfg.maxSessionTimeout = some m)
    (hexp : now - (st.heap sid).metadata.created > m) :
    EventStart cfg st k e now =
      ({ st with
          heap := Function.update
            (Function.update st.heap sid
              { st.heap sid with
                  events := (st.heap sid).events.erase e
                  retired := true })
            st.nextId ⟨cfg.sessionInitFunc k, {e}, false, ⟨now, now⟩⟩
          retiredSessions := insert sid st.retiredSessions
          sessions := st.sessions.insert k st.nextId
          eventToSession := st.eventToSession.insert e st.nextId
          nextId := st.nextId + 1
          initCalls := st.initCalls ++ [k] }, st.nextId) := by
  unfold EventStart
  rw [hfind, hmt]
  simp [hexp]

theorem eventEnd_notFound {T : Type} (cfg : Config T) (st : TrackerState T)
    (e : String) (now : Int) (hfind : st.eventToSession.find e = none) :
    EventEnd cfg st e now =
      (st, Except.error ("event " ++ e ++ " is not associated with any session"), []) := by
  unfold EventEnd
  rw [hfind]

theorem eventEnd_drain {T : Type} (cfg : Config T) (st : TrackerState T)
    (e : String) (now : Int) (sid : Nat)
    (hfind : st.eventToSession.find e = some sid)
    (hemp : (st.heap sid).events.erase e = ∅)
    (hret : (st.heap sid).retired = true) :
    EventEnd cfg st e now =
      ({ st with
          heap := Function.update st.heap sid
            { st.heap sid with
                events := (st.heap sid).events.erase e
                metadata := { (st.heap sid).metadata with updated := now } }
          eventToSession := st.eventToSession.erase e
          retiredSessions := st.retiredSessions.erase sid },
       Except.ok (),
       if cfg.hasOnSessionEnd then
         [⟨(st.heap sid).data,
           ⟨(st.heap sid).metadata.created, now⟩⟩]
       else []) := by
  unfold EventEnd
  rw [hfind]
  simp [hemp, hret]

theorem eventEnd_keep {T : Type} (cfg : Config T) (st : TrackerState T)
    (e : String) (now : Int) (sid : Nat)
    (hfind : st.eventToSession.find e = some sid)
    (hkeep : ¬((st.heap sid).events.erase e = ∅ ∧ (st.heap sid).retired = true)) :
    EventEnd cfg st e now =
      ({ st with
          heap := Function.update st.heap sid
            { st.heap sid with
                events := (st.heap sid).events.erase e
                metadata := { (st.heap sid).metadata with updated := now } }
          eventToSession := st.eventToSession.erase e },
       Except.ok (), []) := by
  unfold EventEnd
  rw [hfind]
  have hsd : (decide ((st.heap sid).events.erase e = (∅ : Finset String))
      && (st.heap sid).retired) = false := by
    rcases Decidable.not_and_iff_or_not.mp hkeep with h | h
    · simp [h]
    · simp [Bool.eq_false_iff.mpr h]
  simp only [hsd, if_neg Bool.false_ne_true]

/-! ### Concrete fixtures used by witnesses and counterexamples -/

/-- A tracker configuration with a 2-unit maximum session lifetime, 10-unit
inactivity timeout, and a configured end-of-session callback. -/
def cfgM : Config Nat := ⟨fun _ => 7, 10, some 2, true⟩

/-- A tracker configuration with no maximum session lifetime. -/
def cfgNoMax : Config Nat := ⟨fun _ => 7, 10, none, true⟩

/-- State after `EventStart "x" "a"` at time 0 on a fresh tracker with
`cfgM`. -/
def stM1 : TrackerState Nat := (EventStart cfgM (initialState 0) "x" "a" 0).1

/-- An empty-open-events session fixture. -/
def sEmpty : Session Nat := ⟨7, ∅, false, ⟨0, 0⟩⟩

/-! ### Claims -/

/-- Claim C2: `janitorShouldRemove` returns false whenever the session's
open-event set is non-empty; otherwise, with a maximum lifetime configured it
returns true iff `now - created` exceeds it, and with none configured it
returns true iff `now - updated` exceeds the inactivity timeout.  The
embedding is a pure function of the session record, so it mutates nothing by
construction. -/
theorem C2_janitorShouldRemove_spec {T : Type} (s : Session T)
    (now inactivityTimeout : Int) (maxSessionTimeout : Option Int) :
    (s.events ≠ ∅ →
      s.janitorShouldRemove now inactivityTimeout maxSessionTimeout = false) ∧
    (s.events = ∅ →
      (∀ m, maxSessionTimeout = some m →
        (s.janitorShouldRemove now inactivityTimeout maxSessionTimeout = true ↔
          now - s.metadata.created > m)) ∧
      (maxSessionTimeout = none →
        (s.janitorShouldRemove now inactivityTimeout maxSessionTimeout = true ↔
          now - s.metadata.updated > inactivityTimeout))) := by
  unfold Session.janitorShouldRemove
  refine ⟨fun h => by simp [h], fun h => ⟨fun m hm => ?_, fun hm => ?_⟩⟩ <;>
    subst hm <;> simp [h]

/-- Witness for C2 at a concrete session with empty events and no maximum
lifetime configured. -/
theorem C2_janitorShouldRemove_spec_witness :
    sEmpty.events = ∅ ∧
    (sEmpty.janitorShouldRemove 20 10 none = true ↔
      (20 : Int) - sEmpty.metadata.updated > 10) :=
  ⟨rfl, ((C2_janitorShouldRemove_spec sEmpty 20 10 none).2 rfl).2 rfl⟩

/-- Claim C10: `EventEnd` on an event identifier absent from the reverse
index returns the "not associated with any session" error and leaves the
whole tracker state (primary map, reverse index, retired set, heap — hence
every session's fields) unchanged, firing no callback. -/
theorem C10_eventEnd_unknown_unchanged {T : Type} (cfg : Config T)
    (st : TrackerState T) (e : String) (now : Int)
    (hfind : st.eventToSession.find e = none) :
    EventEnd cfg st e now =
      (st, Except.error ("event " ++ e ++ " is not associated with any session"), []) :=
  eventEnd_notFound cfg st e now hfind

/-- Witness for C10 on a fresh tracker. -/
theorem C10_eventEnd_unknown_unchanged_witness :
    (initialState 0 : TrackerState Nat).eventToSession.find "zzz" = none ∧
    EventEnd cfgM (initialState 0) "zzz" 3 =
      (initialState 0,
       Except.error ("event " ++ "zzz" ++ " is not associated with any session"), []) :=
  ⟨rfl, C10_eventEnd_unknown_unchanged cfgM (initialState 0) "zzz" 3 rfl⟩

/-- Claim C8: `EventEnd` returns the "not associated with any session" error
iff the event is absent from the reverse index, returns success otherwise,
and a second `EventEnd` for the same identifier after a successful first one
always returns that error. -/
theorem C8_eventEnd_error_iff {T : Type} (cfg : Config T) (st : TrackerState T)
    (e : String) (now : Int) :
    ((EventEnd cfg st e now).2.1 =
        Except.error ("event " ++ e ++ " is not associated with any session") ↔
      st.eventToSession.find e = none) ∧
    ((EventEnd cfg st e now).2.1 = Except.ok () ↔
      (st.eventToSession.find e).isSome) ∧
    (∀ now2 : Int, (EventEnd cfg st e now).2.1 = Except.ok () →
      (EventEnd cfg (EventEnd cfg st e now).1 e now2).2.1 =
        Except.error ("event " ++ e ++ " is not associated with any session")) := by
  rcases h : st.eventToSession.find e with _ | sid
  · rw [eventEnd_notFound cfg st e now h]
    simp [eventEnd_notFound cfg st e now h, h]
  · by_cases hd : (st.heap sid).events.erase e = ∅ ∧ (st.heap sid).retired = true
    · rw [eventEnd_drain cfg st e now sid h hd.1 hd.2]
      refine ⟨by simp [h], by simp [h], fun now2 _ => ?_⟩
      rw [eventEnd_notFound]
      simp
    · rw [eventEnd_keep cfg st e now sid h hd]
      refine ⟨by simp [h], by simp [h], fun now2 _ => ?_⟩
      rw [eventEnd_notFound]
      simp

/-- Witness for C8: a started event ends successfully, a second end for the
same identifier errors. -/
theorem C8_eventEnd_error_iff_witness :
    (stM1.eventToSession.find "a").isSome ∧
    (EventEnd cfgM stM1 "a" 1).2.1 = Except.ok () ∧
    (EventEnd cfgM (EventEnd cfgM stM1 "a" 1).1 "a" 2).2.1 =
      Except.error ("event " ++ "a" ++ " is not associated with any session") := by
  have h := C8_eventEnd_error_iff cfgM stM1 "a" 1
  have hok : (EventEnd cfgM stM1 "a" 1).2.1 = Except.ok () :=
    h.2.1.mpr (by decide)
  exact ⟨by decide, hok, h.2.2 2 hok⟩

/-- Claim C1: when a primary session `sid` for the dedup key exists and its
age exceeds the configured maximum lifetime, `EventStart` retires it, drops
the in-flight event placeholder from it, moves it to the retired set while
leaving every other event's reverse-index entry untouched, creates a new
session from the initializer with open-event set `{e}` and
`created = updated = now`, installs it as primary, indexes the event to it,
and returns it. -/
theorem C1_eventStart_split_behavior {T : Type} (cfg : Config T)
    (st : TrackerState T) (k e : String) (now : Int) (sid : Nat) (m : Int)
    (hfind : st.sessions.find k = some sid)
    (hmt : cfg.maxSessionTimeout = some m)
    (hexp : now - (st.heap sid).metadata.created > m)
    (hsid : sid ≠ st.nextId) :
    (EventStart cfg st k e now).2 = st.nextId ∧
    ((EventStart cfg st k e now).1.heap sid).retired = true ∧
    ((EventStart cfg st k e now).1.heap sid).events =
      (st.heap sid).events.erase e ∧
    ((EventStart cfg st k e now).1.heap sid).data = (st.heap sid).data ∧
    ((EventStart cfg st k e now).1.heap sid).metadata = (st.heap sid).metadata ∧
    sid ∈ (EventStart cfg st k e now).1.retiredSessions ∧
    (∀ e2, e2 ≠ e → (EventStart cfg st k e now).1.eventToSession.find e2 =
      st.eventToSession.find e2) ∧
    (EventStart cfg st k e now).1.heap st.nextId =
      ⟨cfg.sessionInitFunc k, {e}, false, ⟨now, now⟩⟩ ∧
    (EventStart cfg st k e now).1.sessions.find k = some st.nextId ∧
    (EventStart cfg st k e now).1.eventToSession.find e = some st.nextId := by
  rw [eventStart_split cfg st k e now sid m hfind hmt hexp]
  refine ⟨rfl, ?_, ?_, ?_, ?_, ?_, fun e2 he2 => ?_, ?_, ?_, ?_⟩
  · simp [Function.update_apply, hsid]
  · simp [Function.update_apply, hsid]
  · simp [Function.update_apply, hsid]
  · simp [Function.update_apply, hsid]
  · exact Finset.mem_insert_self sid st.retiredSessions
  · simp [he2]
  · simp [Function.update_apply]
  · simp
  · simp

/-- Witness for C1: the session for `"x"` created at time 0 is split by a
start at time 5 under a maximum lifetime of 2. -/
theorem C1_eventStart_split_behavior_witness :
    stM1.sessions.find "x" = some 0 ∧
    (EventStart cfgM stM1 "x" "b" 5).2 = stM1.nextId ∧
    ((EventStart cfgM stM1 "x" "b" 5).1.heap 0).retired = true ∧
    0 ∈ (EventStart cfgM stM1 "x" "b" 5).1.retiredSessions ∧
    (EventStart cfgM stM1 "x" "b" 5).1.sessions.find "x" = some stM1.nextId := by
  obtain ⟨h1, h2, h3, h4, h5, h6, h7, h8, h9, h10⟩ :=
    C1_eventStart_split_behavior cfgM stM1 "x" "b" 5 0 2 (by decide) rfl
      (by decide) (by decide)
  exact ⟨by decide, h1, h2, h6, h9⟩

/-- State after the split: `EventStart "x" "b"` at time 5 on `stM1` under a
maximum lifetime of 2.  Session 0 is retired holding `{"a"}` open; session 1
is the new primary. -/
def stSplit : TrackerState Nat := (EventStart cfgM stM1 "x" "b" 5).1

/-- Claim C3: when the reverse index maps the event to session `sid` (which
holds it open), `EventEnd` removes it from the session's open-event set,
stamps `updated = now`, drops the reverse-index entry, succeeds, and removes
the session from the retired set and fires the configured callback exactly
when the session is retired and this was its last open event. -/
theorem C3_eventEnd_found {T : Type} (cfg : Config T) (st : TrackerState T)
    (e : String) (now : Int) (sid : Nat)
    (hfind : st.eventToSession.find e = some sid)
    (hmem : e ∈ (st.heap sid).events) :
    (EventEnd cfg st e now).2.1 = Except.ok () ∧
    ((EventEnd cfg st e now).1.heap sid).events = (st.heap sid).events.erase e ∧
    ((EventEnd cfg st e now).1.heap sid).metadata.updated = now ∧
    ((EventEnd cfg st e now).1.heap sid).metadata.created =
      (st.heap sid).metadata.created ∧
    (EventEnd cfg st e now).1.eventToSession.find e = none ∧
    (∀ e2, e2 ≠ e → (EventEnd cfg st e now).1.eventToSession.find e2 =
      st.eventToSession.find e2) ∧
    (((st.heap sid).retired = true ∧ (st.heap sid).events = {e}) →
      (EventEnd cfg st e now).1.retiredSessions = st.retiredSessions.erase sid ∧
      (EventEnd cfg st e now).2.2 =
        (if cfg.hasOnSessionEnd then
          [⟨(st.heap sid).data, ⟨(st.heap sid).metadata.created, now⟩⟩]
        else [])) ∧
    (¬((st.heap sid).retired = true ∧ (st.heap sid).events = {e}) →
      (EventEnd cfg st e now).1.retiredSessions = st.retiredSessions ∧
      (EventEnd cfg st e now).2.2 = []) := by
  by_cases hc : (st.heap sid).retired = true ∧ (st.heap sid).events = {e}
  · rw [eventEnd_drain cfg st e now sid hfind
      (by rw [hc.2]; exact Finset.erase_singleton e) hc.1]
    refine ⟨rfl, ?_, ?_, ?_, by simp, fun e2 he2 => by simp [he2], fun _ => ⟨rfl, rfl⟩,
      fun hn => absurd hc hn⟩
    · simp [Function.update_apply]
    · simp [Function.update_apply]
    · simp [Function.update_apply]
  · have hkeep : ¬((st.heap sid).events.erase e = ∅ ∧ (st.heap sid).retired = true) := by
      rintro ⟨hemp, hret⟩
      rcases (Finset.erase_eq_empty_iff (st.heap sid).events e).mp hemp with h0 | h1
      · rw [h0] at hmem; exact absurd hmem (Finset.not_mem_empty e)
      · exact hc ⟨hret, h1⟩
    rw [eventEnd_keep cfg st e now sid hfind hkeep]
    refine ⟨rfl, ?_, ?_, ?_, by simp, fun e2 he2 => by simp [he2],
      fun hy => absurd hy hc, fun _ => ⟨rfl, rfl⟩⟩
    · simp [Function.update_apply]
    · simp [Function.update_apply]
    · simp [Function.update_apply]

/-- Witness for C3: ending the last open event of the retired split-away
session drains it, removes it from the retired set, and fires the callback. -/
theorem C3_eventEnd_found_witness :
    stSplit.eventToSession.find "a" = some 0 ∧
    (EventEnd cfgM stSplit "a" 7).2.1 = Except.ok () ∧
    (EventEnd cfgM stSplit "a" 7).1.retiredSessions =
      stSplit.retiredSessions.erase 0 ∧
    (EventEnd cfgM stSplit "a" 7).2.2 =
      (if cfgM.hasOnSessionEnd then
        [⟨(stSplit.heap 0).data, ⟨(stSplit.heap 0).metadata.created, 7⟩⟩]
      else []) := by
  obtain ⟨h1, h2, h3, h4, h5, h6, h7, h8⟩ :=
    C3_eventEnd_found cfgM stSplit "a" 7 0 (by decide) (by decide)
  obtain ⟨h7a, h7b⟩ := h7 (by decide)
  exact ⟨by decide, h1, h7a, h7b⟩

/-- Claim C9: given a snapshot pair `(k, sid)` whose eviction decision is
true, the janitor deletes the primary mapping only when the store still maps
`k` to the very session `sid`, fires the callback exactly on that verified
deletion, and leaves a replacing newer session untouched with no callback. -/
theorem C9_janitor_identity_check {T : Type} (cfg : Config T)
    (st : TrackerState T) (k : String) (sid : Nat) (now : Int)
    (hShould : (st.heap sid).janitorShouldRemove now cfg.inactivityTimeout
      cfg.maxSessionTimeout = true) :
    (st.sessions.find k = some sid →
      (janitorRemoveActive cfg st k sid now).1.sessions.find k = none ∧
      (∀ k2, k2 ≠ k → (janitorRemoveActive cfg st k sid now).1.sessions.find k2 =
        st.sessions.find k2) ∧
      (janitorRemoveActive cfg st k sid now).1.eventToSession = st.eventToSession ∧
      (janitorRemoveActive cfg st k sid now).1.retiredSessions = st.retiredSessions ∧
      (janitorRemoveActive cfg st k sid now).1.heap = st.heap ∧
      (janitorRemoveActive cfg st k sid now).2 =
        (if cfg.hasOnSessionEnd then
          [⟨(st.heap sid).data, (st.heap sid).metadata⟩] else [])) ∧
    (∀ sid2, st.sessions.find k = some sid2 → sid2 ≠ sid →
      janitorRemoveActive cfg st k sid now = (st, [])) ∧
    (st.sessions.find k = none →
      janitorRemoveActive cfg st k sid now = (st, [])) := by
  unfold janitorRemoveActive
  refine ⟨fun hf => ?_, fun sid2 hf hne => ?_, fun hf => ?_⟩
  · rw [hf]
    simp only [hShould, if_true]
    refine ⟨by simp, fun k2 hk2 => by simp [hk2], ?_, ?_, ?_, ?_⟩ <;> simp
  · rw [hf]
    simp [hShould, hne]
  · rw [hf]
    simp [hShould]

/-- Witness for C9: the identity check passes on an unchanged mapping (the
drained session for `"x"`) and fails after a split has installed session 1,
in which case nothing is deleted and nothing fires. -/
theorem C9_janitor_identity_check_witness :
    ((EventEnd cfgM stM1 "a" 1).1.sessions.find "x" = some 0 ∧
      (janitorRemoveActive cfgM (EventEnd cfgM stM1 "a" 1).1 "x" 0 10).1.sessions.find "x" =
        none) ∧
    ((EventEnd cfgM stSplit "a" 7).1.sessions.find "x" = some 1 ∧
      janitorRemoveActive cfgM (EventEnd cfgM stSplit "a" 7).1 "x" 0 100 =
        ((EventEnd cfgM stSplit "a" 7).1, [])) := by
  have h1 := C9_janitor_identity_check cfgM (EventEnd cfgM stM1 "a" 1).1 "x" 0 10
    (by decide)
  have h2 := C9_janitor_identity_check cfgM (EventEnd cfgM stSplit "a" 7).1 "x" 0 100
    (by decide)
  exact ⟨⟨by decide, (h1.1 (by decide)).1⟩,
    ⟨by decide, h2.2.1 1 (by decide) (by decide)⟩⟩

/-- Counterexample to claim C4.  In `stSplit`, session 0 sits in the retired
set still holding the stale open event `"a"` (whose end call never comes),
and is long past the 2-unit maximum lifetime at tick time 100 — yet the
retired-set sweep leaves it in the retired set and fires no callback,
because `janitorShouldRemove` is false whenever any event is open. -/
theorem C4_stale_open_events_counterexample :
    0 ∈ stSplit.retiredSessions ∧
    (stSplit.heap 0).events ≠ ∅ ∧
    cfgM.maxSessionTimeout = some 2 ∧
    (100 : Int) - (stSplit.heap 0).metadata.created > 2 ∧
    cfgM.hasOnSessionEnd = true ∧
    0 ∈ (janitorRemoveRetired cfgM stSplit 0 100).1.retiredSessions ∧
    (janitorRemoveRetired cfgM stSplit 0 100).2 = [] := by decide

/-- Amended claim C4: at a janitor tick, a session in the retired-set
snapshot is removed from the retired set and the configured callback fired
iff `janitorShouldRemove` is true, which requires its open-event set to be
empty; a retired session still holding stale open events is never touched by
the sweep. -/
theorem C4_retired_sweep_requires_drained {T : Type} (cfg : Config T)
    (st : TrackerState T) (sid : Nat) (now : Int) :
    ((st.heap sid).janitorShouldRemove now cfg.inactivityTimeout
        cfg.maxSessionTimeout = true →
      (janitorRemoveRetired cfg st sid now).1.retiredSessions =
        st.retiredSessions.erase sid ∧
      (janitorRemoveRetired cfg st sid now).1.sessions = st.sessions ∧
      (janitorRemoveRetired cfg st sid now).1.eventToSession =
        st.eventToSession ∧
      (janitorRemoveRetired cfg st sid now).1.heap = st.heap ∧
      (janitorRemoveRetired cfg st sid now).2 =
        (if cfg.hasOnSessionEnd then
          [⟨(st.heap sid).data, (st.heap sid).metadata⟩] else [])) ∧
    ((st.heap sid).events ≠ ∅ →
      janitorRemoveRetired cfg st sid now = (st, [])) := by
  constructor
  · intro h
    unfold janitorRemoveRetired
    simp [h]
  · intro h
    have hfalse : (st.heap sid).janitorShouldRemove now cfg.inactivityTimeout
        cfg.maxSessionTimeout = false := by
      unfold Session.janitorShouldRemove
      simp [h]
    unfold janitorRemoveRetired
    simp [hfalse]

/-- State after a same-event split: `EventStart "x" "a"` at time 5 on `stM1`
retires session 0 with an empty open-event set. -/
def stSplitSame : TrackerState Nat := (EventStart cfgM stM1 "x" "a" 5).1

/-- Witness for the amended C4: the empty retired carcass left by a
same-event split is swept and its callback fired, while the carcass with a
stale open event (`stSplit`) is left alone. -/
theorem C4_retired_sweep_requires_drained_witness :
    ((stSplitSame.heap 0).janitorShouldRemove 100 cfgM.inactivityTimeout
        cfgM.maxSessionTimeout = true ∧
      (janitorRemoveRetired cfgM stSplitSame 0 100).1.retiredSessions =
        stSplitSame.retiredSessions.erase 0 ∧
      (janitorRemoveRetired cfgM stSplitSame 0 100).2 =
        (if cfgM.hasOnSessionEnd then
          [⟨(stSplitSame.heap 0).data, (stSplitSame.heap 0).metadata⟩]
        else [])) ∧
    ((stSplit.heap 0).events ≠ ∅ ∧
      janitorRemoveRetired cfgM stSplit 0 100 = (stSplit, [])) := by
  have h1 := C4_retired_sweep_requires_drained cfgM stSplitSame 0 100
  have h2 := C4_retired_sweep_requires_drained cfgM stSplit 0 100
  obtain ⟨ha, _, _, _, hb⟩ := h1.1 (by decide)
  exact ⟨⟨by decide, ha, hb⟩, ⟨by decide, h2.2 (by decide)⟩⟩

/-- Counterexample to claim C6.  Session 0 (created 0) is split away at time
5 (maximum lifetime 2) while holding `"a"` open; ending `"a"` at time 7 fires
its callback with metadata `(created = 0, updated = 7)`: the `updated`
timestamp is the end-call time, after the split at 5, not a pre-split
value. -/
theorem C6_post_split_updated_counterexample :
    stSplit.sessions.find "x" = some 1 ∧
    (stSplit.heap 0).retired = true ∧
    (stSplit.heap 0).metadata.created = 0 ∧
    (EventEnd cfgM stSplit "a" 7).2.2 = [⟨7, ⟨0, 7⟩⟩] ∧
    ¬((7 : Int) < 5) := by decide

/-- The state after `EventStart "x" "a"` at time 0 on a fresh tracker,
written out (definitionally equal to the trace state; used to drive the
amended C6 proof). -/
def c6St1 {T : Type} (cfg : Config T) (t0 : T) : TrackerState T :=
  ⟨FMap.empty.insert "x" 0, FMap.empty.insert "a" 0, ∅,
   Function.update (fun _ => ⟨t0, ∅, false, ⟨0, 0⟩⟩) 0
     ⟨cfg.sessionInitFunc "x", {"a"}, false, ⟨0, 0⟩⟩,
   1, ["x"]⟩

/-- The state after the further `EventStart "x" "b"` at time `t` when it
splits, written out. -/
def c6St2 {T : Type} (cfg : Config T) (t0 : T) (t : Int) : TrackerState T :=
  ⟨(FMap.empty.insert "x" 0).insert "x" 1,
   (FMap.empty.insert "a" 0).insert "b" 1,
   insert 0 ∅,
   Function.update
     (Function.update
       (Function.update (fun _ => ⟨t0, ∅, false, ⟨0, 0⟩⟩) 0
         ⟨cfg.sessionInitFunc "x", {"a"}, false, ⟨0, 0⟩⟩)
       0
       ⟨cfg.sessionInitFunc "x", ({"a"} : Finset String).erase "b", true, ⟨0, 0⟩⟩)
     1 ⟨cfg.sessionInitFunc "x", {"b"}, false, ⟨t, t⟩⟩,
   2, ["x", "x"]⟩

/-- Amended claim C6: when the session created at time 0 is split away at
time `t > M` still holding event `"a"`, and `"a"` ends at time `t2 > t`, the
callback fires with `created = 0` (pre-split) but `updated = t2`, the time of
the final `EventEnd` — after the split, not pre-split. -/
theorem C6_amended_split_drain_metadata {T : Type} (cfg : Config T) (t0 : T)
    (mx t t2 : Int)
    (hmt : cfg.maxSessionTimeout = some mx)
    (hcb : cfg.hasOnSessionEnd = true)
    (h0 : 0 < t) (hsplit : t - 0 > mx) (ht2 : t < t2) :
    (EventEnd cfg
      (runOps cfg (initialState t0) [Op.start "x" "a" 0, Op.start "x" "b" t])
      "a" t2).2.2 = [⟨cfg.sessionInitFunc "x", ⟨0, t2⟩⟩] ∧
    (0 : Int) < t ∧ t < t2 := by
  refine ⟨?_, h0, ht2⟩
  have h1 : runOps cfg (initialState t0) [Op.start "x" "a" 0, Op.start "x" "b" t] =
      (EventStart cfg (c6St1 cfg t0) "x" "b" t).1 := by
    simp only [runOps, stepOp]
    rw [eventStart_fresh cfg (initialState t0) "x" "a" 0 rfl]
    rfl
  have h2 : (EventStart cfg (c6St1 cfg t0) "x" "b" t).1 = c6St2 cfg t0 t := by
    rw [eventStart_split cfg (c6St1 cfg t0) "x" "b" t 0 mx rfl hmt hsplit]
    rfl
  rw [h1, h2]
  rw [eventEnd_drain cfg (c6St2 cfg t0 t) "a" t2 0 rfl
    (by show (({"a"} : Finset String).erase "b").erase "a" = ∅; decide) rfl]
  rw [hcb]
  rfl

/-- Witness for the amended C6 with a 2-unit maximum lifetime, split at time
5, drain at time 7. -/
theorem C6_amended_split_drain_metadata_witness :
    (EventEnd cfgM
      (runOps cfgM (initialState 0) [Op.start "x" "a" 0, Op.start "x" "b" 5])
      "a" 7).2.2 = [⟨7, ⟨0, 7⟩⟩] ∧
    (0 : Int) < 5 ∧ (5 : Int) < 7 :=
  C6_amended_split_drain_metadata cfgM 0 2 5 7 rfl rfl (by decide) (by decide)
    (by decide)

theorem runStarts_reuse {T : Type} (cfg : Config T) (k : String) :
    ∀ (calls : List (String × Int)) (st : TrackerState T) (sid : Nat),
    st.sessions.find k = some sid →
    (∀ c ∈ calls, ∀ m, cfg.maxSessionTimeout = some m →
      c.2 - (st.heap sid).metadata.created ≤ m) →
    (runStarts cfg k st calls).2 = (calls.map fun _ => sid) ∧
    (runStarts cfg k st calls).1.initCalls = st.initCalls ∧
    ((runStarts cfg k st calls).1.heap sid).data = (st.heap sid).data ∧
    ((runStarts cfg k st calls).1.heap sid).metadata.created =
      (st.heap sid).metadata.created ∧
    (runStarts cfg k st calls).1.sessions.find k = some sid := by
  intro calls
  induction calls with
  | nil =>
    intro st sid hfind _
    exact ⟨rfl, rfl, rfl, rfl, hfind⟩
  | cons c rest ih =>
    intro st sid hfind hfresh
    obtain ⟨e, now⟩ := c
    have hstep := eventStart_reuse cfg st k e now sid hfind
      (fun m hm => hfresh (e, now) (List.mem_cons_self _ _) m hm)
    simp only [runStarts]
    rw [hstep]
    have hcre : (Function.update st.heap sid
        { st.heap sid with
            events := insert e (st.heap sid).events
            metadata := { (st.heap sid).metadata with updated := now } } sid).metadata.created =
        (st.heap sid).metadata.created := by
      simp [Function.update_apply]
    have hdat : (Function.update st.heap sid
        { st.heap sid with
            events := insert e (st.heap sid).events
            metadata := { (st.heap sid).metadata with updated := now } } sid).data =
        (st.heap sid).data := by
      simp [Function.update_apply]
    obtain ⟨ih1, ih2, ih3, ih4, ih5⟩ := ih
      { st with
          heap := Function.update st.heap sid
            { st.heap sid with
                events := insert e (st.heap sid).events
                metadata := { (st.heap sid).metadata with updated := now } }
          eventToSession := st.eventToSession.insert e sid }
      sid hfind
      (fun c hc m hm => by rw [hcre]; exact hfresh c (List.mem_cons_of_mem _ hc) m hm)
    refine ⟨by simpa using ih1, ih2, ?_, ?_, ih5⟩
    · rw [ih3]; exact hdat
    · rw [ih4]; exact hcre

/-- Claim C7: across any sequence of `EventStart` calls for one dedup key
whose primary session never exceeds the configured maximum lifetime, every
call returns the same session identifier, the initializer is never invoked
again (the payload stays the one constructed at creation), and each single
reuse call registers the event into the open-event set and stamps
`updated = now`. -/
theorem C7_eventStart_same_session_init_once {T : Type} (cfg : Config T)
    (st : TrackerState T) (k : String) (sid : Nat)
    (calls : List (String × Int))
    (hfind : st.sessions.find k = some sid)
    (hfresh : ∀ c ∈ calls, ∀ m, cfg.maxSessionTimeout = some m →
      c.2 - (st.heap sid).metadata.created ≤ m) :
    ((runStarts cfg k st calls).2 = (calls.map fun _ => sid) ∧
     (runStarts cfg k st calls).1.initCalls = st.initCalls ∧
     ((runStarts cfg k st calls).1.heap sid).data = (st.heap sid).data ∧
     (runStarts cfg k st calls).1.sessions.find k = some sid) ∧
    (∀ e now, (∀ m, cfg.maxSessionTimeout = some m →
        now - (st.heap sid).metadata.created ≤ m) →
      (EventStart cfg st k e now).2 = sid ∧
      ((EventStart cfg st k e now).1.heap sid).events =
        insert e ((st.heap sid).events) ∧
      ((EventStart cfg st k e now).1.heap sid).metadata.updated = now ∧
      ((EventStart cfg st k e now).1.heap sid).data = (st.heap sid).data ∧
      (EventStart cfg st k e now).1.initCalls = st.initCalls) := by
  obtain ⟨h1, h2, h3, _, h5⟩ := runStarts_reuse cfg k calls st sid hfind hfresh
  refine ⟨⟨h1, h2, h3, h5⟩, fun e now hnow => ?_⟩
  rw [eventStart_reuse cfg st k e now sid hfind hnow]
  refine ⟨rfl, ?_, ?_, ?_, rfl⟩ <;> simp [Function.update_apply]

/-- Witness for C7: two further starts for `"x"` inside the lifetime both
return session 0 without invoking the initializer again. -/
theorem C7_eventStart_same_session_init_once_witness :
    (runStarts cfgM "x" stM1 [("b", 1), ("c", 2)]).2 = [0, 0] ∧
    (runStarts cfgM "x" stM1 [("b", 1), ("c", 2)]).1.initCalls =
      stM1.initCalls ∧
    (EventStart cfgM stM1 "x" "d" 1).2 = 0 ∧
    ((EventStart cfgM stM1 "x" "d" 1).1.heap 0).metadata.updated = 1 := by
  have h := C7_eventStart_same_session_init_once cfgM stM1 "x" 0
    [("b", 1), ("c", 2)] (by decide)
    (by
      intro c hc m hm
      have hm2 : m = 2 := Option.some.inj hm.symm
      subst hm2
      simp only [List.mem_cons, List.not_mem_nil, or_false] at hc
      rcases hc with rfl | rfl <;> decide)
  obtain ⟨h1, hsingle⟩ := h
  have h2 := hsingle "d" 1
    (fun m hm => by
      have hm2 : m = 2 := Option.some.inj hm.symm
      subst hm2
      decide)
  exact ⟨h1.1, h1.2.1, h2.1, h2.2.2.1⟩

theorem mem_activeSids {T : Type} (st : TrackerState T) (sid : Nat) :
    sid ∈ activeSids st ↔
      (∃ k, st.sessions.find k = some sid) ∨ sid ∈ st.retiredSessions := by
  rw [activeSids, Finset.mem_union, mem_liveSids]

theorem inv_initialState {T : Type} (t0 : T) : Inv (initialState t0) := by
  refine ⟨⟨fun sid hsid => ?_, fun e sid h => ?_⟩, fun sid hsid => ?_⟩
  · rw [mem_activeSids] at hsid
    rcases hsid with ⟨k, hk⟩ | hr
    · exact Option.noConfusion hk
    · exact absurd hr (Finset.not_mem_empty sid)
  · exact Option.noConfusion h
  · rw [mem_activeSids] at hsid
    rcases hsid with ⟨k, hk⟩ | hr
    · exact Option.noConfusion hk
    · exact absurd hr (Finset.not_mem_empty sid)

theorem consistent_size {T : Type} (st : TrackerState T) (h : Consistent st) :
    st.eventToSession.size = totalOpenEvents st := by
  obtain ⟨h1, h2⟩ := h
  have hdom : st.eventToSession.dom =
      (activeSids st).biUnion fun sid => (st.heap sid).events := by
    apply Finset.ext
    intro e
    rw [st.eventToSession.mem_dom, Finset.mem_biUnion, Option.isSome_iff_exists]
    constructor
    · rintro ⟨sid, hsid⟩
      obtain ⟨ha, he⟩ := h2 e sid hsid
      exact ⟨sid, ha, he⟩
    · rintro ⟨sid, ha, he⟩
      exact ⟨sid, h1 sid ha e he⟩
  have hdisj : ∀ x ∈ activeSids st, ∀ y ∈ activeSids st, x ≠ y →
      Disjoint (st.heap x).events (st.heap y).events := by
    intro x hx y hy hxy
    rw [Finset.disjoint_left]
    intro e hex hey
    have e1 := h1 x hx e hex
    have e2 := h1 y hy e hey
    rw [e1] at e2
    exact hxy (Option.some.inj e2)
  rw [FMap.size, hdom, Finset.card_biUnion hdisj, totalOpenEvents]

theorem inv_reuse_state {T : Type} (st : TrackerState T) (e : String)
    (now : Int) (sid0 : Nat) (hInv : Inv st)
    (hsid0 : sid0 ∈ activeSids st)
    (hok0 : ∀ s, st.eventToSession.find e = some s → s = sid0) :
    Inv { st with
        heap := Function.update st.heap sid0
          { st.heap sid0 with
              events := insert e (st.heap sid0).events
              metadata := { (st.heap sid0).metadata with updated := now } }
        eventToSession := st.eventToSession.insert e sid0 } := by
  obtain ⟨⟨h1, h2⟩, h3⟩ := hInv
  have hact : activeSids { st with
      heap := Function.update st.heap sid0
        { st.heap sid0 with
            events := insert e (st.heap sid0).events
            metadata := { (st.heap sid0).metadata with updated := now } }
      eventToSession := st.eventToSession.insert e sid0 } = activeSids st := rfl
  refine ⟨⟨?_, ?_⟩, ?_⟩
  · intro sid hsid e2 he2
    rw [hact] at hsid
    simp only [FMap.find_insert]
    simp only [Function.update_apply] at he2
    rcases eq_or_ne sid sid0 with rfl | hne
    · rw [if_pos rfl] at he2
      simp only [Finset.mem_insert] at he2
      rcases eq_or_ne e2 e with rfl | hee
      · rw [if_pos rfl]
      · rw [if_neg hee]
        rcases he2 with h | he2'
        · exact absurd h hee
        · exact h1 sid hsid e2 he2'
    · rw [if_neg hne] at he2
      have he2' := h1 sid hsid e2 he2
      have hee : e2 ≠ e := by
        rintro rfl
        exact hne (hok0 sid he2')
      rw [if_neg hee]
      exact he2'
  · intro e2 sid hf
    simp only [FMap.find_insert] at hf
    rcases eq_or_ne e2 e with rfl | hee
    · rw [if_pos rfl] at hf
      obtain rfl := Option.some.inj hf
      refine ⟨hact ▸ hsid0, ?_⟩
      simp only [Function.update_apply, if_pos rfl]
      exact Finset.mem_insert_self e2 _
    · rw [if_neg hee] at hf
      obtain ⟨ha, he⟩ := h2 e2 sid hf
      refine ⟨hact ▸ ha, ?_⟩
      simp only [Function.update_apply]
      rcases eq_or_ne sid sid0 with rfl | hne
      · rw [if_pos rfl]
        exact Finset.mem_insert_of_mem he
      · rw [if_neg hne]
        exact he
  · intro sid hsid
    rw [hact] at hsid
    exact h3 sid hsid

theorem inv_fresh_state {T : Type} (st : TrackerState T) (k e : String)
    (now : Int) (d : T) (hInv : Inv st)
    (hfind : st.sessions.find k = none)
    (henone : st.eventToSession.find e = none) :
    Inv { st with
        heap := Function.update st.heap st.nextId ⟨d, {e}, false, ⟨now, now⟩⟩
        sessions := st.sessions.insert k st.nextId
        eventToSession := st.eventToSession.insert e st.nextId
        nextId := st.nextId + 1
        initCalls := st.initCalls ++ [k] } := by
  obtain ⟨⟨h1, h2⟩, h3⟩ := hInv
  have hact : ∀ sid, sid ∈ activeSids { st with
      heap := Function.update st.heap st.nextId ⟨d, {e}, false, ⟨now, now⟩⟩
      sessions := st.sessions.insert k st.nextId
      eventToSession := st.eventToSession.insert e st.nextId
      nextId := st.nextId + 1
      initCalls := st.initCalls ++ [k] } ↔
      sid = st.nextId ∨ sid ∈ activeSids st := by
    intro sid
    simp only [mem_activeSids, FMap.find_insert]
    constructor
    · rintro (⟨k2, hk2⟩ | hr)
      · rcases eq_or_ne k2 k with rfl | hkk
        · rw [if_pos rfl] at hk2
          exact Or.inl (Option.some.inj hk2).symm
        · rw [if_neg hkk] at hk2
          exact Or.inr (Or.inl ⟨k2, hk2⟩)
      · exact Or.inr (Or.inr hr)
    · rintro (rfl | ⟨k2, hk2⟩ | hr)
      · exact Or.inl ⟨k, by rw [if_pos rfl]⟩
      · refine Or.inl ⟨k2, ?_⟩
        rw [if_neg ?_]
        · exact hk2
        · rintro rfl
          rw [hfind] at hk2
          exact Option.noConfusion hk2
      · exact Or.inr hr
  refine ⟨⟨?_, ?_⟩, ?_⟩
  · intro sid hsid e2 he2
    simp only [FMap.find_insert]
    simp only [Function.update_apply] at he2
    rcases (hact sid).mp hsid with rfl | hold
    · rw [if_pos rfl] at he2
      simp only [Finset.mem_singleton] at he2
      subst he2
      rw [if_pos rfl]
    · have hne : sid ≠ st.nextId := Nat.ne_of_lt (h3 sid hold)
      rw [if_neg hne] at he2
      have he2' := h1 sid hold e2 he2
      have hee : e2 ≠ e := by
        rintro rfl
        rw [henone] at he2'
        exact Option.noConfusion he2'
      rw [if_neg hee]
      exact he2'
  · intro e2 sid hf
    simp only [FMap.find_insert] at hf
    rcases eq_or_ne e2 e with rfl | hee
    · rw [if_pos rfl] at hf
      obtain rfl := Option.some.inj hf
      refine ⟨(hact _).mpr (Or.inl rfl), ?_⟩
      simp only [Function.update_apply, if_pos rfl]
      exact Finset.mem_singleton_self e2
    · rw [if_neg hee] at hf
      obtain ⟨ha, he⟩ := h2 e2 sid hf
      refine ⟨(hact sid).mpr (Or.inr ha), ?_⟩
      simp only [Function.update_apply]
      rw [if_neg (Nat.ne_of_lt (h3 sid ha))]
      exact he
  · intro sid hsid
    rcases (hact sid).mp hsid with rfl | hold
    · exact Nat.lt_succ_self _
    · exact Nat.lt_succ_of_lt (h3 sid hold)

theorem inv_split_state {T : Type} (st : TrackerState T) (k e : String)
    (now : Int) (d : T) (sid0 : Nat) (hInv : Inv st)
    (hfind : st.sessions.find k = some sid0)
    (hok0 : ∀ s, st.eventToSession.find e = some s → s = sid0) :
    Inv { st with
        heap := Function.update
          (Function.update st.heap sid0
            { st.heap sid0 with
                events := (st.heap sid0).events.erase e
                retired := true })
          st.nextId ⟨d, {e}, false, ⟨now, now⟩⟩
        retiredSessions := insert sid0 st.retiredSessions
        sessions := st.sessions.insert k st.nextId
        eventToSession := st.eventToSession.insert e st.nextId
        nextId := st.nextId + 1
        initCalls := st.initCalls ++ [k] } := by
  obtain ⟨⟨h1, h2⟩, h3⟩ := hInv
  have hsid0act : sid0 ∈ activeSids st :=
    (mem_activeSids st sid0).mpr (Or.inl ⟨k, hfind⟩)
  have hact : ∀ sid, sid ∈ activeSids { st with
      heap := Function.update
        (Function.update st.heap sid0
          { st.heap sid0 with
              events := (st.heap sid0).events.erase e
              retired := true })
        st.nextId ⟨d, {e}, false, ⟨now, now⟩⟩
      retiredSessions := insert sid0 st.retiredSessions
      sessions := st.sessions.insert k st.nextId
      eventToSession := st.eventToSession.insert e st.nextId
      nextId := st.nextId + 1
      initCalls := st.initCalls ++ [k] } ↔
      sid = st.nextId ∨ sid ∈ activeSids st := by
    intro sid
    simp only [mem_activeSids, FMap.find_insert, Finset.mem_insert]
    constructor
    · rintro (⟨k2, hk2⟩ | rfl | hr)
      · rcases eq_or_ne k2 k with rfl | hkk
        · rw [if_pos rfl] at hk2
          exact Or.inl (Option.some.inj hk2).symm
        · rw [if_neg hkk] at hk2
          exact Or.inr (Or.inl ⟨k2, hk2⟩)
      · exact Or.inr ((mem_activeSids st sid).mp hsid0act)
      · exact Or.inr (Or.inr hr)
    · rintro (rfl | ⟨k2, hk2⟩ | hr)
      · exact Or.inl ⟨k, by rw [if_pos rfl]⟩
      · rcases eq_or_ne k2 k with rfl | hkk
        · rw [hfind] at hk2
          exact Or.inr (Or.inl (Option.some.inj hk2).symm)
        · exact Or.inl ⟨k2, by rw [if_neg hkk]; exact hk2⟩
      · exact Or.inr (Or.inr hr)
  have hlt : ∀ sid ∈ activeSids st, sid ≠ st.nextId :=
    fun sid h => Nat.ne_of_lt (h3 sid h)
  refine ⟨⟨?_, ?_⟩, ?_⟩
  · intro sid hsid e2 he2
    simp only [FMap.find_insert]
    simp only [Function.update_apply] at he2
    rcases (hact sid).mp hsid with rfl | hold
    · rw [if_pos rfl] at he2
      simp only [Finset.mem_singleton] at he2
      subst he2
      rw [if_pos rfl]
    · rw [if_neg (hlt sid hold)] at he2
      rcases eq_or_ne sid sid0 with rfl | hne0
      · rw [if_pos rfl] at he2
        simp only [Finset.mem_erase] at he2
        obtain ⟨hee, he2'⟩ := he2
        rw [if_neg hee]
        exact h1 sid hold e2 he2'
      · rw [if_neg hne0] at he2
        have he2' := h1 sid hold e2 he2
        have hee : e2 ≠ e := by
          rintro rfl
          exact hne0 (hok0 sid he2')
        rw [if_neg hee]
        exact he2'
  · intro e2 sid hf
    simp only [FMap.find_insert] at hf
    rcases eq_or_ne e2 e with rfl | hee
    · rw [if_pos rfl] at hf
      obtain rfl := Option.some.inj hf
      refine ⟨(hact _).mpr (Or.inl rfl), ?_⟩
      simp only [Function.update_apply, if_pos rfl]
      exact Finset.mem_singleton_self e2
    · rw [if_neg hee] at hf
      obtain ⟨ha, he⟩ := h2 e2 sid hf
      refine ⟨(hact sid).mpr (Or.inr ha), ?_⟩
      simp only [Function.update_apply]
      rw [if_neg (hlt sid ha)]
      rcases eq_or_ne sid sid0 with rfl | hne0
      · rw [if_pos rfl]
        exact Finset.mem_erase.mpr ⟨hee, he⟩
      · rw [if_neg hne0]
        exact he
  · intro sid hsid
    rcases (hact sid).mp hsid with rfl | hold
    · exact Nat.lt_succ_self _
    · exact Nat.lt_succ_of_lt (h3 sid hold)

theorem inv_eventEnd {T : Type} (cfg : Config T) (st : TrackerState T)
    (e : String) (now : Int) (hInv : Inv st) :
    Inv (EventEnd cfg st e now).1 := by
  obtain ⟨⟨h1, h2⟩, h3⟩ := hInv
  rcases hf : st.eventToSession.find e with _ | sid0
  · rw [eventEnd_notFound cfg st e now hf]
    exact ⟨⟨h1, h2⟩, h3⟩
  · obtain ⟨ha0, he0⟩ := h2 e sid0 hf
    by_cases hd : (st.heap sid0).events.erase e = ∅ ∧ (st.heap sid0).retired = true
    · rw [eventEnd_drain cfg st e now sid0 hf hd.1 hd.2]
      have hsub : ∀ sid, sid ∈ activeSids { st with
          heap := Function.update st.heap sid0
            { st.heap sid0 with
                events := (st.heap sid0).events.erase e
                metadata := { (st.heap sid0).metadata with updated := now } }
          eventToSession := st.eventToSession.erase e
          retiredSessions := st.retiredSessions.erase sid0 } →
          sid ∈ activeSids st := by
        intro sid h
        simp only [mem_activeSids] at h ⊢
        rcases h with ⟨k2, hk2⟩ | hr
        · exact Or.inl ⟨k2, hk2⟩
        · exact Or.inr (Finset.mem_of_mem_erase hr)
      refine ⟨⟨?_, ?_⟩, ?_⟩
      · intro sid hsid e2 he2
        simp only [FMap.find_erase]
        simp only [Function.update_apply] at he2
        rcases eq_or_ne sid sid0 with rfl | hne0
        · rw [if_pos rfl] at he2
          simp only [] at he2
          rw [hd.1] at he2
          exact absurd he2 (Finset.not_mem_empty e2)
        · rw [if_neg hne0] at he2
          have he2' := h1 sid (hsub sid hsid) e2 he2
          have hee : e2 ≠ e := by
            rintro rfl
            rw [hf] at he2'
            exact hne0 (Option.some.inj he2').symm
          rw [if_neg hee]
          exact he2'
      · intro e2 sid hfe
        simp only [FMap.find_erase] at hfe
        rcases eq_or_ne e2 e with rfl | hee
        · rw [if_pos rfl] at hfe
          exact absurd hfe (by simp)
        · rw [if_neg hee] at hfe
          obtain ⟨ha, he⟩ := h2 e2 sid hfe
          have hne0 : sid ≠ sid0 := by
            rintro rfl
            have : e2 ∈ (st.heap sid).events.erase e :=
              Finset.mem_erase.mpr ⟨hee, he⟩
            rw [hd.1] at this
            exact absurd this (Finset.not_mem_empty e2)
          constructor
          · simp only [mem_activeSids] at ha ⊢
            rcases ha with ⟨k2, hk2⟩ | hr
            · exact Or.inl ⟨k2, hk2⟩
            · exact Or.inr (Finset.mem_erase.mpr ⟨hne0, hr⟩)
          · simp only [Function.update_apply]
            rw [if_neg hne0]
            exact he
      · intro sid hsid
        exact h3 sid (hsub sid hsid)
    · rw [eventEnd_keep cfg st e now sid0 hf hd]
      have hact : activeSids { st with
          heap := Function.update st.heap sid0
            { st.heap sid0 with
                events := (st.heap sid0).events.erase e
                metadata := { (st.heap sid0).metadata with updated := now } }
          eventToSession := st.eventToSession.erase e } = activeSids st := rfl
      refine ⟨⟨?_, ?_⟩, ?_⟩
      · intro sid hsid e2 he2
        rw [hact] at hsid
        simp only [FMap.find_erase]
        simp only [Function.update_apply] at he2
        rcases eq_or_ne sid sid0 with rfl | hne0
        · rw [if_pos rfl] at he2
          simp only [Finset.mem_erase] at he2
          obtain ⟨hee, he2'⟩ := he2
          rw [if_neg hee]
          exact h1 sid hsid e2 he2'
        · rw [if_neg hne0] at he2
          have he2' := h1 sid hsid e2 he2
          have hee : e2 ≠ e := by
            rintro rfl
            rw [hf] at he2'
            exact hne0 (Option.some.inj he2').symm
          rw [if_neg hee]
          exact he2'
      · intro e2 sid hfe
        simp only [FMap.find_erase] at hfe
        rcases eq_or_ne e2 e with rfl | hee
        · rw [if_pos rfl] at hfe
          exact absurd hfe (by simp)
        · rw [if_neg hee] at hfe
          obtain ⟨ha, he⟩ := h2 e2 sid hfe
          refine ⟨hact ▸ ha, ?_⟩
          simp only [Function.update_apply]
          rcases eq_or_ne sid sid0 with rfl | hne0
          · rw [if_pos rfl]
            exact Finset.mem_erase.mpr ⟨hee, he⟩
          · rw [if_neg hne0]
            exact he
      · intro sid hsid
        rw [hact] at hsid
        exact h3 sid hsid

theorem inv_eventStart {T : Type} (cfg : Config T) (st : TrackerState T)
    (k e : String) (now : Int) (hInv : Inv st)
    (hok : ∀ sid, st.eventToSession.find e = some sid →
      st.sessions.find k = some sid) :
    Inv (EventStart cfg st k e now).1 := by
  rcases hfind : st.sessions.find k with _ | sid0
  · have henone : st.eventToSession.find e = none := by
      rcases hE : st.eventToSession.find e with _ | s
      · rfl
      · have := hok s hE
        rw [hfind] at this
        exact Option.noConfusion this
    rw [eventStart_fresh cfg st k e now hfind]
    exact inv_fresh_state st k e now (cfg.sessionInitFunc k) hInv hfind henone
  · have hok0 : ∀ s, st.eventToSession.find e = some s → s = sid0 := by
      intro s hs
      have := hok s hs
      rw [hfind] at this
      exact (Option.some.inj this).symm
    have hsid0act : sid0 ∈ activeSids st :=
      (mem_activeSids st sid0).mpr (Or.inl ⟨k, hfind⟩)
    rcases hmt : cfg.maxSessionTimeout with _ | m
    · rw [eventStart_reuse cfg st k e now sid0 hfind
        (fun m2 hm2 => by rw [hmt] at hm2; exact Option.noConfusion hm2)]
      exact inv_reuse_state st e now sid0 hInv hsid0act hok0
    · by_cases hexp : now - (st.heap sid0).metadata.created > m
      · rw [eventStart_split cfg st k e now sid0 m hfind hmt hexp]
        exact inv_split_state st k e now (cfg.sessionInitFunc k) sid0 hInv hfind hok0
      · rw [eventStart_reuse cfg st k e now sid0 hfind
          (fun m2 hm2 => by
            rw [hmt] at hm2
            obtain rfl := Option.some.inj hm2
            exact not_lt.mp hexp)]
        exact inv_reuse_state st e now sid0 hInv hsid0act hok0

theorem inv_runOps {T : Type} (cfg : Config T) :
    ∀ (ops : List Op) (st : TrackerState T),
    Inv st → okTrace cfg st ops → Inv (runOps cfg st ops)
  | [], st, hInv, _ => hInv
  | op :: rest, st, hInv, hok => by
    obtain ⟨hok1, hokRest⟩ := hok
    refine inv_runOps cfg rest (stepOp cfg st op) ?_ hokRest
    cases op with
    | start k e now => exact inv_eventStart cfg st k e now hInv hok1
    | finish e now => exact inv_eventEnd cfg st e now hInv

/-- Counterexample to claim C5.  Starting the same event identifier `"e"`
for two different dedup keys leaves session 0 still holding `"e"` open while
the reverse index maps `"e"` to session 1: the two structures disagree, and
the reverse-index size (1) differs from the total open-event count (2). -/
theorem C5_duplicate_event_counterexample :
    0 ∈ activeSids (runOps cfgNoMax (initialState 0)
      [Op.start "a" "e" 0, Op.start "b" "e" 0]) ∧
    "e" ∈ ((runOps cfgNoMax (initialState 0)
      [Op.start "a" "e" 0, Op.start "b" "e" 0]).heap 0).events ∧
    (runOps cfgNoMax (initialState 0)
      [Op.start "a" "e" 0, Op.start "b" "e" 0]).eventToSession.find "e" =
      some 1 ∧
    FMap.size (runOps cfgNoMax (initialState 0)
      [Op.start "a" "e" 0, Op.start "b" "e" 0]).eventToSession = 1 ∧
    totalOpenEvents (runOps cfgNoMax (initialState 0)
      [Op.start "a" "e" 0, Op.start "b" "e" 0]) = 2 := by decide

/-- Amended claim C5: after every finite sequence of `EventStart` and
`EventEnd` calls in which no `EventStart` reuses an event identifier that is
currently open against a session other than the primary session of the
call's own dedup key, the two index structures are mutually consistent and
the reverse-index size equals the total open-event count over live and
retired sessions. -/
theorem C5_amended_index_consistency {T : Type} (cfg : Config T) (t0 : T)
    (ops : List Op) (hok : okTrace cfg (initialState t0) ops) :
    Consistent (runOps cfg (initialState t0) ops) ∧
    FMap.size (runOps cfg (initialState t0) ops).eventToSession =
      totalOpenEvents (runOps cfg (initialState t0) ops) := by
  have hInv := inv_runOps cfg ops (initialState t0) (inv_initialState t0) hok
  exact ⟨hInv.1, consistent_size _ hInv.1⟩

/-- Witness for the amended C5 on a concrete three-call trace. -/
theorem C5_amended_index_consistency_witness :
    okTrace cfgM (initialState 0)
      [Op.start "x" "a" 0, Op.start "x" "b" 1, Op.finish "a" 2] ∧
    FMap.size (runOps cfgM (initialState 0)
      [Op.start "x" "a" 0, Op.start "x" "b" 1, Op.finish "a" 2]).eventToSession =
      totalOpenEvents (runOps cfgM (initialState 0)
        [Op.start "x" "a" 0, Op.start "x" "b" 1, Op.finish "a" 2]) := by
  have hok : okTrace cfgM (initialState 0)
      [Op.start "x" "a" 0, Op.start "x" "b" 1, Op.finish "a" 2] :=
    ⟨fun sid h => Option.noConfusion h, fun sid h => Option.noConfusion h,
     trivial, trivial⟩
  exact ⟨hok,
    (C5_amended_index_consistency cfgM 0
      [Op.start "x" "a" 0, Op.start "x" "b" 1, Op.finish "a" 2] hok).2⟩

end Slide
